import Mathlib

/-!
Verification development for the IFC alignment viewer
(`src/utils/visualizer.py`, class `AlignmentVisualizer`).

The geometric core of the repository is shallowly embedded here:

* the vertical-profile evaluator `_evaluate_vertical_profile`, the
  authoring-pattern heuristic and the vertical analysis table of
  `_create_analysis_tables` are modelled over exact rationals `ℚ`
  (the Python code computes with floats; the idealisation to exact
  arithmetic is the standard shallow embedding of the numeric intent);
* the horizontal evaluators `_evaluate_line_segment`,
  `_evaluate_circle_segment` and the curve walker
  `_evaluate_base_curve` need `sin`, `cos`, `sqrt` and `π`, so they are
  modelled over `ℝ`;
* fallible Python code (raised exceptions) is modelled with
  `Except PyError`; the `PyError` constructors mirror the Python
  exception classes that the corresponding source lines can raise.
-/

/-- Python exception taxonomy used by the embedded code.  `valueError`
models the `raise ValueError(...)` statements of the source;
`zeroDivisionError`, `attributeError` and `indexError` model the
runtime exceptions Python raises for division by zero, attribute access
on `None`, and out-of-range list indexing. -/
inductive PyError where
  | valueError (msg : String)
  | zeroDivisionError (msg : String)
  | attributeError (msg : String)
  | indexError (msg : String)
deriving DecidableEq, Repr

/-- A 2D axis placement: `Location.Coordinates` plus the optional
`RefDirection.DirectionRatios` (lines 79-83 / 101-105 / 174-175 and 183
of `visualizer.py`).  `α` is `ℚ` for the vertical profile and `ℝ` for
the horizontal curve. -/
structure Placement (α : Type) where
  location : α × α
  refDirection : Option (α × α)
deriving DecidableEq, Repr

/-- `numpy.linspace a b n`: `n` evenly spaced values from `a` to `b`
inclusive, value `i` being `a + (b - a) * i / (n - 1)`. -/
def linspace {α : Type} [Field α] (a b : α) (n : ℕ) : List α :=
  (List.range n).map fun (i : ℕ) => a + (b - a) * (i : α) / ((n : α) - 1)

/-- The authoring-pattern heuristic.  The expression
`abs(c0) > 1.0 or abs(c1) > 0.001` appears verbatim at line 194
(`_evaluate_vertical_profile`) and line 246 (`_create_analysis_tables`)
of `visualizer.py`; it is defined once here and used by both embedded
functions. -/
def is_civil3d (c0 c1 : ℚ) : Bool :=
  decide (|c0| > 1) || decide (|c1| > 1/1000)

/-- The full polynomial value `c0 + c1·u + c2·u² + …` of an ordered
coefficient list, following the series formula of the specification
(§4.2): used to compare the code's truncated evaluation against the
spec's words. -/
def polyEvalFull : List ℚ → ℚ → ℚ
  | [], _ => 0
  | c :: cs, u => c + u * polyEvalFull cs u

/-- Parent curve of a vertical (gradient) segment: `IfcLine`,
`IfcPolynomialCurve` (with its `CoefficientsY`), or some other IFC
curve type (carrying its `is_a()` name). -/
inductive VParentCurve where
  | line
  | polynomialCurve (coefficientsY : List ℚ)
  | other (ifcTypeName : String)
deriving DecidableEq, Repr

/-- The display name of a vertical parent curve:
`parent.is_a().replace('Ifc', '')` (line 235 of `visualizer.py`).  For
the curve kinds the code distinguishes the `is_a()` string is exactly
`Ifc` followed by the display name, so the stripped name is modelled
directly; for `other` the constructor carries the already-stripped
display name. -/
def VParentCurve.typeName : VParentCurve → String
  | .line => "Line"
  | .polynomialCurve _ => "PolynomialCurve"
  | .other s => s

/-- A segment of the gradient composite curve (lines 165-169 of
`visualizer.py`): `Placement`, `ParentCurve`, `SegmentStart.wrappedValue`
and `SegmentLength.wrappedValue`. -/
structure VSegment where
  placement : Placement ℚ
  parentCurve : VParentCurve
  segmentStart : ℚ
  segmentLength : ℚ
deriving DecidableEq, Repr

/-- The per-sample list of a polynomial vertical segment
(lines 185-202 of `visualizer.py`): `c0 = coeffs[0]`,
`c1 = coeffs[1] if len(coeffs) > 1 else 0`,
`c2 = coeffs[2] if len(coeffs) > 2 else 0`; 100 sample parameters
`u = linspace(0, length, 100)`; each sample is the pair
`(seg_start_dist + u, elevation)` where elevation is
`c0 + c1*u + c2*u*u` in the absolute ("Civil3D") classification and
`seg_start_elev + c0 + c1*u + c2*u*u` in the offset ("IMX") one.
The caller guarantees `coeffs` nonempty (`coeffs[0]` raises otherwise,
see `vsegmentSamples`), so `headD 0` agrees with Python `coeffs[0]`. -/
def polySegmentSamples (loc : ℚ × ℚ) (coeffs : List ℚ) (length : ℚ) :
    List (ℚ × ℚ) :=
  (linspace 0 length 100).map fun u =>
    (loc.1 + u,
      if is_civil3d (coeffs.headD 0) (coeffs.getD 1 0) then
        coeffs.headD 0 + coeffs.getD 1 0 * u + coeffs.getD 2 0 * u * u
      else
        loc.2 + coeffs.headD 0 + coeffs.getD 1 0 * u + coeffs.getD 2 0 * u * u)

/-- One iteration of the segment loop of `_evaluate_vertical_profile`
(lines 165-202 of `visualizer.py`), producing the (distances,
elevations) contribution of one gradient segment:

* `length == 0` → `continue` (contributes nothing, before any attribute
  access or division);
* `IfcLine` → 50 samples `(seg_start_dist + t, seg_start_elev +
  t * ref_dir.y / ref_dir.x)`; the source dereferences
  `placement.RefDirection` without a presence check (AttributeError when
  absent) and divides by `ref_dir.x` without a zero guard
  (ZeroDivisionError when zero);
* `IfcPolynomialCurve` → `coeffs[0]` raises IndexError on an empty
  list, otherwise the 100 samples of `polySegmentSamples`;
* any other parent curve → no matching branch, contributes nothing. -/
def vsegmentSamples (seg : VSegment) : Except PyError (List ℚ × List ℚ) :=
  if seg.segmentLength = 0 then .ok ([], [])
  else
    match seg.parentCurve with
    | .line =>
      match seg.placement.refDirection with
      | none => .error (.attributeError
          "NoneType object has no attribute DirectionRatios")
      | some rd =>
        if rd.1 = 0 then
          .error (.zeroDivisionError "float division by zero")
        else
          .ok ((linspace 0 seg.segmentLength 50).map
                 (fun t => seg.placement.location.1 + t),
               (linspace 0 seg.segmentLength 50).map
                 (fun t => seg.placement.location.2 + t * rd.2 / rd.1))
    | .polynomialCurve coeffs =>
      if coeffs = [] then .error (.indexError "list index out of range")
      else
        .ok ((polySegmentSamples seg.placement.location coeffs
                seg.segmentLength).map Prod.fst,
             (polySegmentSamples seg.placement.location coeffs
                seg.segmentLength).map Prod.snd)
    | .other _ => .ok ([], [])

/-- `_evaluate_vertical_profile` (lines 160-204 of `visualizer.py`):
walks the gradient curve's segments in order, concatenating each
segment's distance and elevation samples; the first raised exception
aborts the whole evaluation.  The `max_distance` parameter is carried
exactly as in the source signature; the source body never reads it. -/
def _evaluate_vertical_profile :
    List VSegment → ℚ → Except PyError (List ℚ × List ℚ)
  | [], _ => .ok ([], [])
  | seg :: rest, max_distance =>
    match vsegmentSamples seg with
    | .error e => .error e
    | .ok (ds, es) =>
      match _evaluate_vertical_profile rest max_distance with
      | .error e => .error e
      | .ok (ds2, es2) => .ok (ds ++ ds2, es ++ es2)

/-- The structured payload of the `Details` column of the vertical
analysis table (lines 239-257 of `visualizer.py`).  The source renders
these numbers into a display string with two-decimal formatting; the
formatting is presentation only and the numeric payload is modelled. -/
inductive VertDetails where
  | polyDetail (pattern : String) (startGradPercent endGradPercent : ℚ)
  | lineDetail (gradPercent : ℚ)
  | empty
deriving DecidableEq, Repr

/-- The `Details` computation for one vertical-table row
(lines 239-257 of `visualizer.py`):

* `IfcPolynomialCurve`: `coeffs[0]` (IndexError on empty), missing
  `c1`/`c2` default to 0, pattern `"Civil3D"`/`"IMX"` by the
  `is_civil3d` heuristic, `start_grad = c1 * 100`,
  `end_grad = (c1 + 2 * c2 * length) * 100`;
* `IfcLine`: only when `RefDirection` is present (the table, unlike the
  profile evaluator, checks `hasattr` first), grade
  `(ref.y / ref.x) * 100 if ref.x != 0 else 0` — an explicit
  divide-by-zero guard;
* anything else: empty details. -/
def vsegmentDetail (seg : VSegment) : Except PyError VertDetails :=
  match seg.parentCurve with
  | .polynomialCurve coeffs =>
    if coeffs = [] then .error (.indexError "list index out of range")
    else
      .ok (.polyDetail
        (if is_civil3d (coeffs.headD 0) (coeffs.getD 1 0) then "Civil3D"
         else "IMX")
        (coeffs.getD 1 0 * 100)
        ((coeffs.getD 1 0 + 2 * coeffs.getD 2 0 * seg.segmentLength) * 100))
  | .line =>
    match seg.placement.refDirection with
    | some rd =>
      .ok (.lineDetail (if rd.1 ≠ 0 then rd.2 / rd.1 * 100 else 0))
    | none => .ok .empty
  | .other _ => .ok .empty

/-- One row of the vertical analysis table (lines 259-266 of
`visualizer.py`): index, `is_a()` name with the `Ifc` prefix stripped,
cumulative distance (running sum of raw segment lengths), raw length,
start elevation (`Placement.Location.Coordinates[1]`), details. -/
structure VertRow where
  seg : ℕ
  typeName : String
  distance : ℚ
  length : ℚ
  elevation : ℚ
  details : VertDetails
deriving DecidableEq, Repr

/-- The vertical-table loop of `_create_analysis_tables`
(lines 230-268 of `visualizer.py`), with its running index and its own
cumulative-distance accumulator (independent from the curve walker's):
`cumulative_dist += length` after each row, zero-length segments are
not skipped here. -/
def vertRowsGo : List VSegment → ℕ → ℚ → Except PyError (List VertRow)
  | [], _, _ => .ok []
  | seg :: rest, idx, cum =>
    match vsegmentDetail seg with
    | .error e => .error e
    | .ok d =>
      match vertRowsGo rest (idx + 1) (cum + seg.segmentLength) with
      | .error e => .error e
      | .ok rows =>
        .ok ({ seg := idx
               typeName := VParentCurve.typeName seg.parentCurve
               distance := cum
               length := seg.segmentLength
               elevation := seg.placement.location.2
               details := d } :: rows)

/-- The vertical-profile table of `_create_analysis_tables`
(lines 229-270 of `visualizer.py`). -/
def _create_analysis_tables_vertical (segments : List VSegment) :
    Except PyError (List VertRow) :=
  vertRowsGo segments 0 0

/-- A shape representation of an alignment: its `RepresentationType`
string (line 34/36 of `visualizer.py`). -/
structure PRepresentation where
  representationType : String
deriving DecidableEq, Repr

/-- The `Representation` product of an entity, holding the list
`Representations` (line 33 of `visualizer.py`). -/
structure ProductRepresentation where
  representations : List PRepresentation
deriving DecidableEq, Repr

/-- An IFC entity as `create_visualization` sees it: its `is_a()` type
string, and the optional `Representation` attribute (in IFC the
`Representation` of a product is optional, i.e. may be `None`). -/
structure Entity where
  entityType : String
  representation : Option ProductRepresentation
deriving DecidableEq, Repr

/-- `entity.is_a(s)` membership test, modelled as type-name equality. -/
def Entity.is_a (e : Entity) (s : String) : Bool :=
  e.entityType == s

/-- The body of the representation-scanning loop of
`create_visualization` (lines 33-37 of `visualizer.py`), with the
accumulated `(base_rep, gradient_rep)` pair threaded through. -/
def selectRepsGo :
    List PRepresentation → Option PRepresentation × Option PRepresentation →
    Option PRepresentation × Option PRepresentation
  | [], acc => acc
  | r :: rest, acc =>
    if r.representationType = "Curve2D" then selectRepsGo rest (some r, acc.2)
    else if r.representationType = "Curve3D" then
      selectRepsGo rest (acc.1, some r)
    else selectRepsGo rest acc

/-- The representation-scanning loop of `create_visualization`
(lines 30-37 of `visualizer.py`): `base_rep` keeps the last
`Curve2D` representation, `gradient_rep` the last `Curve3D` one, both
starting from `None`. -/
def selectReps (reps : List PRepresentation) :
    Option PRepresentation × Option PRepresentation :=
  selectRepsGo reps (none, none)

/-- The alignment-resolution and validation phase of
`create_visualization` (lines 21-43 of `visualizer.py`), up to the
point where both curve representations have been obtained; the rest of
the method (curve evaluation, plotting, HTML output) is performed by
the functions modelled separately and by the external plotting library.

`by_id` is the external IFC library's resolver.  Modelled from the
spec: the IFC object model access is out of scope (§1), assumed to
expose "resolve entity by numeric id"; it is modelled as a function
returning the entity or nothing, matching the source's
`if not alignment` falsiness check.

Source behavior embedded here:
* no entity, or an entity that is not an `IfcAlignment` →
  `ValueError("Alignment {id} not found or invalid")`;
* `alignment.Representation.Representations` is dereferenced with no
  presence check, so a `None` representation raises `AttributeError`;
* after the scan, a missing base or gradient representation →
  `ValueError("Alignment missing base or gradient curve")`. -/
def create_visualization (by_id : ℕ → Option Entity) (alignment_id : ℕ) :
    Except PyError (PRepresentation × PRepresentation) :=
  match by_id alignment_id with
  | none => .error (.valueError
      ("Alignment " ++ toString alignment_id ++ " not found or invalid"))
  | some alignment =>
    if alignment.is_a "IfcAlignment" = false then
      .error (.valueError
        ("Alignment " ++ toString alignment_id ++ " not found or invalid"))
    else
      match alignment.representation with
      | none => .error (.attributeError
          "NoneType object has no attribute Representations")
      | some prodRep =>
        match selectReps prodRep.representations with
        | (some base_rep, some gradient_rep) => .ok (base_rep, gradient_rep)
        | (none, _) => .error (.valueError
            "Alignment missing base or gradient curve")
        | (_, none) => .error (.valueError
            "Alignment missing base or gradient curve")

/-- Parent curve of a base (horizontal) segment: `IfcLine`, `IfcCircle`
(with its `Radius`), or some other IFC curve type. -/
inductive HParentCurve where
  | line
  | circle (radius : ℝ)
  | other (ifcTypeName : String)

/-- A segment of the base composite curve (lines 134-138 of
`visualizer.py`). -/
structure HSegment where
  placement : Placement ℝ
  parentCurve : HParentCurve
  segmentStart : ℝ
  segmentLength : ℝ

/-- The reference direction actually used by the horizontal evaluators
(lines 80-83 / 102-105 of `visualizer.py`): `DirectionRatios` when
`RefDirection` is present, else the default `(1.0, 0.0)`. -/
def refDirOf {α : Type} [Field α] (placement : Placement α) : α × α :=
  placement.refDirection.getD (1, 0)

/-- The local-to-world transform of both horizontal evaluators
(lines 88-95 / 117-124 of `visualizer.py`): with
`cos_angle = ref_dir[0]` and `sin_angle = ref_dir[1]` taken directly
from the direction ratios (no normalisation), the world point is
`(loc.x + px*cos - py*sin, loc.y + px*sin + py*cos)`. -/
def rotateTranslate (loc rd p : ℝ × ℝ) : ℝ × ℝ :=
  (loc.1 + p.1 * rd.1 - p.2 * rd.2, loc.2 + p.1 * rd.2 + p.2 * rd.1)

/-- The world-frame rotation stated by the specification (§4.1):
`world = origin + R(θ) · local` with
`θ = atan2(ref_dir.y, ref_dir.x)`.  Since
`cos (atan2 y x) = x / √(x²+y²)` and `sin (atan2 y x) = y / √(x²+y²)`,
`R(θ)` is expressed through the normalised direction components.
This definition follows the spec's words (not the source) and exists
to be compared with `rotateTranslate`. -/
noncomputable def spec_world_point (origin rd p : ℝ × ℝ) : ℝ × ℝ :=
  (origin.1 + (p.1 * rd.1 - p.2 * rd.2) / Real.sqrt (rd.1 ^ 2 + rd.2 ^ 2),
   origin.2 + (p.1 * rd.2 + p.2 * rd.1) / Real.sqrt (rd.1 ^ 2 + rd.2 ^ 2))

/-- `_evaluate_line_segment` (lines 77-97 of `visualizer.py`):
`num_points` parameters `t = linspace(0, length, num_points)`, local
points `(t, 0)`, transformed by `rotateTranslate`.  The source's
unused `parent_curve` argument is omitted; `start` is kept (unused, as
in the source); `num_points` defaults to 50 at the call site. -/
noncomputable def _evaluate_line_segment (placement : Placement ℝ)
    (start length : ℝ) (num_points : ℕ) : List (ℝ × ℝ) :=
  (linspace 0 length num_points).map fun t =>
    rotateTranslate placement.location (refDirOf placement) (t, 0)

/-- The `local_points` of `_evaluate_circle_segment`
(lines 108-115 of `visualizer.py`), for a nonzero radius:
for `length > 0`, angles `linspace(0, length/radius, n)` and points
`(radius*sin a, radius*(1 - cos a))`; otherwise angles
`linspace(0, -length/radius, n)` and points
`(radius*sin a, -(radius*(1 - cos a)))`. -/
noncomputable def circleLocalPoints (radius length : ℝ) (num_points : ℕ) :
    List (ℝ × ℝ) :=
  if 0 < length then
    (linspace 0 (length / radius) num_points).map fun a =>
      (radius * Real.sin a, radius * (1 - Real.cos a))
  else
    (linspace 0 (-length / radius) num_points).map fun a =>
      (radius * Real.sin a, -(radius * (1 - Real.cos a)))

/-- `_evaluate_circle_segment` (lines 99-126 of `visualizer.py`):
`total_angle = length / radius` raises `ZeroDivisionError` when
`radius == 0` (before any point is produced); otherwise the local
points of `circleLocalPoints` transformed by `rotateTranslate`. -/
noncomputable def _evaluate_circle_segment (placement : Placement ℝ)
    (start length radius : ℝ) (num_points : ℕ) :
    Except PyError (List (ℝ × ℝ)) :=
  if radius = 0 then .error (.zeroDivisionError "float division by zero")
  else .ok ((circleLocalPoints radius length num_points).map
      (rotateTranslate placement.location (refDirOf placement)))

/-- Dispatch of the curve-walker loop body (lines 140-145 of
`visualizer.py`): `IfcLine` and `IfcCircle` are evaluated with the
default 50 points; any other parent curve is silently skipped
(`continue`), modelled as `none`. -/
noncomputable def segPoints (seg : HSegment) :
    Except PyError (Option (List (ℝ × ℝ))) :=
  match seg.parentCurve with
  | .line => .ok (some (_evaluate_line_segment seg.placement
      seg.segmentStart seg.segmentLength 50))
  | .circle radius =>
    (_evaluate_circle_segment seg.placement seg.segmentStart
      seg.segmentLength radius 50).map some
  | .other _ => .ok none

/-- Euclidean distance between consecutive points
(lines 153-155 of `visualizer.py`): `sqrt(dx**2 + dy**2)`. -/
noncomputable def euclid (p q : ℝ × ℝ) : ℝ :=
  Real.sqrt ((q.1 - p.1) ^ 2 + (q.2 - p.2) ^ 2)

/-- The inner appending loop of `_evaluate_base_curve`
(lines 150-156 of `visualizer.py`): append each point; from the second
appended point on, increment `current_dist` by the Euclidean distance
to the previously appended point; record the running distance for every
point.  State: (all points so far, distances so far, current distance).
-/
noncomputable def appendRun :
    List (ℝ × ℝ) → List ℝ → ℝ → List (ℝ × ℝ) →
    List (ℝ × ℝ) × List ℝ × ℝ
  | pts, ds, cur, [] => (pts, ds, cur)
  | pts, ds, cur, p :: run =>
    match pts.getLast? with
    | none => appendRun (pts ++ [p]) (ds ++ [cur]) cur run
    | some q => appendRun (pts ++ [p]) (ds ++ [cur + euclid q p])
        (cur + euclid q p) run

/-- The segment loop of `_evaluate_base_curve` (lines 134-156 of
`visualizer.py`): evaluate each segment, drop the first sampled point
of every segment after the first (`points = points[1:]` when
`all_points` is nonempty), then run the appending loop. -/
noncomputable def walkSegments :
    List HSegment → List (ℝ × ℝ) → List ℝ → ℝ →
    Except PyError (List (ℝ × ℝ) × List ℝ)
  | [], pts, ds, _ => .ok (pts, ds)
  | seg :: rest, pts, ds, cur =>
    match segPoints seg with
    | .error e => .error e
    | .ok none => walkSegments rest pts ds cur
    | .ok (some sampled) =>
      let kept := if pts.isEmpty then sampled else sampled.tail
      let st := appendRun pts ds cur kept
      walkSegments rest st.1 st.2.1 st.2.2

/-- `_evaluate_base_curve` (lines 128-158 of `visualizer.py`): walk the
base composite curve's segments starting from empty point/distance
lists and `current_dist = 0.0`. -/
noncomputable def _evaluate_base_curve (segments : List HSegment) :
    Except PyError (List (ℝ × ℝ) × List ℝ) :=
  walkSegments segments [] [] 0

/-- Total Euclidean length of a polyline: the sum of `euclid` over
consecutive pairs (a proof-side abbreviation for reasoning about
`appendRun`). -/
noncomputable def pathLength : List (ℝ × ℝ) → ℝ
  | p :: q :: rest => euclid p q + pathLength (q :: rest)
  | _ => 0

theorem linspace_length {α : Type} [Field α] (a b : α) (n : ℕ) :
    (linspace a b n).length = n := by
  unfold linspace
  rw [List.length_map, List.length_range]

theorem linspace_getElem? {α : Type} [Field α] (a b : α) (n i : ℕ)
    (h : i < n) :
    (linspace a b n)[i]? = some (a + (b - a) * (i : α) / ((n : α) - 1)) := by
  unfold linspace
  rw [List.getElem?_map, List.getElem?_range h]
  rfl

theorem linspace_get {α : Type} [Field α] (a b : α) (n i : ℕ)
    (h : i < (linspace a b n).length) :
    (linspace a b n).get ⟨i, h⟩ = a + (b - a) * (i : α) / ((n : α) - 1) := by
  have h2 : i < n := by
    have := linspace_length a b n
    omega
  have h3 := List.getElem?_eq_getElem h
  rw [linspace_getElem? a b n i h2] at h3
  rw [List.get_eq_getElem]
  exact (Option.some.injEq _ _).mp h3.symm

theorem linspace_head? {α : Type} [Field α] (a b : α) (n : ℕ) (h : 0 < n) :
    (linspace a b n).head? = some a := by
  rw [List.head?_eq_getElem?, linspace_getElem? a b n 0 h]
  simp

theorem linspace_getLast? {α : Type} [Field α] [CharZero α] (a b : α)
    (n : ℕ) (h : 2 ≤ n) :
    (linspace a b n).getLast? = some b := by
  rw [List.getLast?_eq_getElem?, linspace_length,
    linspace_getElem? a b n (n - 1) (by omega)]
  have h1 : ((n - 1 : ℕ) : α) = (n : α) - 1 := by
    push_cast [Nat.cast_sub (by omega : 1 ≤ n)]
    ring
  have h2 : ((n : α) - 1) ≠ 0 := by
    intro hc
    have hn1 : ((n : ℕ) : α) = ((1 : ℕ) : α) := by
      rw [Nat.cast_one]
      exact sub_eq_zero.mp hc
    have : n = 1 := Nat.cast_inj.mp hn1
    omega
  rw [h1, mul_div_assoc, div_self h2]
  simp

theorem linspace_chain_le {α : Type} [LinearOrderedField α] (a b : α)
    (n : ℕ) (h : a ≤ b) : List.Chain' (· ≤ ·) (linspace a b n) := by
  rw [List.chain'_iff_get]
  intro i hi
  rw [linspace_length] at hi
  rw [linspace_get, linspace_get]
  have hn : 2 ≤ n := by omega
  have hc : (0 : α) < (n : α) - 1 := by
    have : (1 : α) < (n : α) := by
      exact_mod_cast Nat.one_lt_cast.mpr (by omega)
    linarith
  apply add_le_add_left
  rw [div_le_div_iff_of_pos_right hc]
  apply mul_le_mul_of_nonneg_left _ (sub_nonneg.mpr h)
  exact Nat.cast_le.mpr (Nat.le_succ i)

theorem polyEvalFull_take_three (coeffs : List ℚ) (u : ℚ) :
    polyEvalFull (coeffs.take 3) u =
      coeffs.headD 0 + coeffs.getD 1 0 * u + coeffs.getD 2 0 * u * u := by
  match coeffs with
  | [] =>
    simp [polyEvalFull]
  | [a] =>
    simp [polyEvalFull, List.getD]
    try ring
  | [a, b] =>
    simp [polyEvalFull, List.getD]
    try ring
  | a :: b :: c :: rest =>
    simp [polyEvalFull, List.getD, List.take]
    try ring

theorem selectRepsGo_fst_none (reps : List PRepresentation) :
    ∀ acc, (selectRepsGo reps acc).1 = none ↔
      (acc.1 = none ∧ ∀ r ∈ reps, r.representationType ≠ "Curve2D") := by
  induction reps with
  | nil => intro acc; simp [selectRepsGo]
  | cons r rest ih =>
    intro acc
    simp only [selectRepsGo]
    split
    · rw [ih]
      simp_all
    · split
      · rw [ih]
        simp_all
      · rw [ih]
        simp_all

theorem selectRepsGo_snd_none (reps : List PRepresentation) :
    ∀ acc, (selectRepsGo reps acc).2 = none ↔
      (acc.2 = none ∧ ∀ r ∈ reps, r.representationType ≠ "Curve3D") := by
  induction reps with
  | nil => intro acc; simp [selectRepsGo]
  | cons r rest ih =>
    intro acc
    simp only [selectRepsGo]
    split
    · rw [ih]
      simp_all
    · split
      · rw [ih]
        simp_all
      · rw [ih]
        simp_all

theorem euclid_nonneg (p q : ℝ × ℝ) : 0 ≤ euclid p q :=
  Real.sqrt_nonneg _

theorem chain_concat_of_le (ds : List ℝ) (c : ℝ)
    (h1 : List.Chain' (· ≤ ·) ds) (h2 : ∀ x ∈ ds, x ≤ c) :
    List.Chain' (· ≤ ·) (ds ++ [c]) := by
  rw [List.chain'_append]
  refine ⟨h1, List.chain'_singleton c, ?_⟩
  intro x hx y hy
  simp only [List.head?_cons, Option.mem_def, Option.some.injEq] at hy
  subst hy
  exact h2 x (List.mem_of_mem_getLast? hx)

theorem appendRun_invariant (run : List (ℝ × ℝ)) :
    ∀ (pts : List (ℝ × ℝ)) (ds : List ℝ) (cur : ℝ),
      List.Chain' (· ≤ ·) ds → (∀ x ∈ ds, x ≤ cur) →
      List.Chain' (· ≤ ·) (appendRun pts ds cur run).2.1 ∧
      (∀ x ∈ (appendRun pts ds cur run).2.1,
        x ≤ (appendRun pts ds cur run).2.2) := by
  induction run with
  | nil =>
    intro pts ds cur h1 h2
    exact ⟨h1, h2⟩
  | cons p run ih =>
    intro pts ds cur h1 h2
    unfold appendRun
    cases hlast : pts.getLast? with
    | none =>
      apply ih
      · exact chain_concat_of_le ds cur h1 h2
      · intro x hx
        rcases List.mem_append.mp hx with hx | hx
        · exact h2 x hx
        · simp only [List.mem_singleton] at hx
          exact le_of_eq hx
    | some q =>
      have hcur : cur ≤ cur + euclid q p := by
        linarith [euclid_nonneg q p]
      apply ih
      · apply chain_concat_of_le ds (cur + euclid q p) h1
        intro x hx
        exact le_trans (h2 x hx) hcur
      · intro x hx
        rcases List.mem_append.mp hx with hx | hx
        · exact le_trans (h2 x hx) hcur
        · simp only [List.mem_singleton] at hx
          exact le_of_eq hx

theorem walkSegments_chain (segs : List HSegment) :
    ∀ (pts : List (ℝ × ℝ)) (ds : List ℝ) (cur : ℝ)
      (out : List (ℝ × ℝ) × List ℝ),
      List.Chain' (· ≤ ·) ds → (∀ x ∈ ds, x ≤ cur) →
      walkSegments segs pts ds cur = .ok out →
      List.Chain' (· ≤ ·) out.2 := by
  induction segs with
  | nil =>
    intro pts ds cur out h1 _ hw
    unfold walkSegments at hw
    cases hw
    exact h1
  | cons seg rest ih =>
    intro pts ds cur out h1 h2 hw
    unfold walkSegments at hw
    cases hsp : segPoints seg with
    | error e =>
      rw [hsp] at hw
      cases hw
    | ok osampled =>
      rw [hsp] at hw
      cases osampled with
      | none => exact ih pts ds cur out h1 h2 hw
      | some sampled =>
        simp only at hw
        set kept := if pts.isEmpty then sampled else sampled.tail with hkept
        obtain ⟨hch, hle⟩ := appendRun_invariant kept pts ds cur h1 h2
        exact ih _ _ _ out hch hle hw

theorem appendRun_final_cur (run : List (ℝ × ℝ)) :
    ∀ (pts : List (ℝ × ℝ)) (ds : List ℝ) (cur : ℝ),
      (appendRun pts ds cur run).2.2 =
        cur + pathLength (pts.getLast?.toList ++ run) := by
  induction run with
  | nil =>
    intro pts ds cur
    unfold appendRun
    cases pts.getLast? with
    | none => simp [pathLength]
    | some q => simp [pathLength]
  | cons p run ih =>
    intro pts ds cur
    unfold appendRun
    cases hlast : pts.getLast? with
    | none =>
      rw [ih]
      simp [pathLength]
    | some q =>
      rw [ih]
      have : (pts ++ [p]).getLast? = some p := by simp
      rw [this]
      simp only [Option.toList_some, List.singleton_append, List.nil_append]
      rw [pathLength]
      ring

theorem appendRun_getLast (run : List (ℝ × ℝ)) (hrun : run ≠ []) :
    ∀ (pts : List (ℝ × ℝ)) (ds : List ℝ) (cur : ℝ),
      (appendRun pts ds cur run).2.1.getLast? =
        some (appendRun pts ds cur run).2.2 := by
  induction run with
  | nil => exact absurd rfl hrun
  | cons p run ih =>
    intro pts ds cur
    unfold appendRun
    cases run with
    | nil =>
      cases pts.getLast? with
      | none => unfold appendRun; simp
      | some q => unfold appendRun; simp
    | cons p2 run2 =>
      cases pts.getLast? with
      | none => exact ih (by simp) _ _ _
      | some q => exact ih (by simp) _ _ _

theorem euclid_affine (loc : ℝ × ℝ) (a b s t u : ℝ) (hs : 0 ≤ s)
    (hab : a ^ 2 + b ^ 2 = s ^ 2) (h : t ≤ u) :
    euclid (loc.1 + t * a, loc.2 + t * b) (loc.1 + u * a, loc.2 + u * b) =
      s * (u - t) := by
  unfold euclid
  have h1 : (loc.1 + u * a - (loc.1 + t * a)) ^ 2 +
      (loc.2 + u * b - (loc.2 + t * b)) ^ 2 = (s * (u - t)) ^ 2 := by
    have : (loc.1 + u * a - (loc.1 + t * a)) ^ 2 +
        (loc.2 + u * b - (loc.2 + t * b)) ^ 2 =
        (u - t) ^ 2 * (a ^ 2 + b ^ 2) := by ring
    rw [this, hab]
    ring
  simp only
  rw [h1]
  exact Real.sqrt_sq (mul_nonneg hs (sub_nonneg.mpr h))

theorem pathLength_map_affine (loc : ℝ × ℝ) (a b s : ℝ) (hs : 0 ≤ s)
    (hab : a ^ 2 + b ^ 2 = s ^ 2) :
    ∀ (ts : List ℝ) (th tl : ℝ), List.Chain' (· ≤ ·) ts →
      ts.head? = some th → ts.getLast? = some tl →
      pathLength (ts.map fun t => (loc.1 + t * a, loc.2 + t * b)) =
        s * (tl - th) := by
  intro ts
  induction ts with
  | nil =>
    intro th tl _ hh _
    cases hh
  | cons t ts ih =>
    intro th tl hch hh hl
    cases hh
    cases ts with
    | nil =>
      cases hl
      simp [pathLength]
    | cons t2 ts2 =>
      rw [List.chain'_cons] at hch
      have hl2 : (t2 :: ts2).getLast? = some tl := by
        rw [← hl]
        simp [List.getLast?_cons_cons]
      have ihv := ih t2 tl hch.2 rfl hl2
      simp only [List.map_cons] at ihv ⊢
      rw [pathLength, euclid_affine loc a b s t t2 hs hab hch.1, ihv]
      ring

theorem line_segment_points_eq (loc rd : ℝ × ℝ) (st L : ℝ) (n : ℕ) :
    _evaluate_line_segment ⟨loc, some rd⟩ st L n =
      (linspace 0 L n).map fun t => (loc.1 + t * rd.1, loc.2 + t * rd.2) := by
  unfold _evaluate_line_segment rotateTranslate refDirOf
  apply List.map_congr_left
  intro t _
  simp only [Option.getD_some, Prod.mk.injEq]
  constructor <;> ring

/-- For a single line segment, the walker's final cumulative distance is
`s * L` where `s` is the norm of the (unnormalised) reference direction:
the key quantitative fact behind both the confirmation (unit direction)
and the refutation (non-unit direction) of the length claim. -/
theorem base_curve_single_line (loc rd : ℝ × ℝ) (st L s : ℝ) (hs : 0 ≤ s)
    (hab : rd.1 ^ 2 + rd.2 ^ 2 = s ^ 2) (hL : 0 ≤ L) :
    ∃ pts ds, _evaluate_base_curve [⟨⟨loc, some rd⟩, .line, st, L⟩] =
      .ok (pts, ds) ∧ ds.getLast? = some (s * L) := by
  unfold _evaluate_base_curve walkSegments segPoints
  simp only [List.isEmpty_nil, if_true]
  set sampled := _evaluate_line_segment ⟨loc, some rd⟩ st L 50 with hsampled
  have hne : sampled ≠ [] := by
    rw [hsampled, line_segment_points_eq]
    intro hc
    have := congrArg List.length hc
    rw [List.length_map, linspace_length] at this
    simp at this
  set res := appendRun [] [] 0 sampled with hres
  refine ⟨res.1, res.2.1, ?_, ?_⟩
  · unfold walkSegments
    rfl
  · rw [appendRun_getLast sampled hne]
    rw [appendRun_final_cur]
    have hcur : pathLength ((List.getLast? ([] : List (ℝ × ℝ))).toList ++ sampled)
        = s * L := by
      simp only [List.getLast?_nil, Option.toList_none, List.nil_append]
      rw [hsampled, line_segment_points_eq]
      rw [pathLength_map_affine loc rd.1 rd.2 s hs hab (linspace 0 L 50) 0 L
        (linspace_chain_le 0 L 50 hL)
        (linspace_head? 0 L 50 (by norm_num))
        (linspace_getLast? 0 L 50 (by norm_num))]
      ring
    rw [hcur]
    norm_num

/-- Claim C1: the authoring-pattern classifier labels a polynomial
vertical segment absolute-coefficient ("Civil3D") iff
`|c0| > 1.0 OR |c1| > 0.001`, and offset-coefficient ("IMX")
otherwise; the comparison is strict, so `c0 = 1.0, c1 = 0.0`
classifies as offset and `c0 = 1.0001` as absolute; the classification
is a pure function of `(c0, c1)` (it is a Lean function of exactly
those arguments, hence deterministic), and the analysis table derives
its "Civil3D"/"IMX" label from the same classifier. -/
theorem polynomial_pattern_classifier_spec :
    (∀ c0 c1 : ℚ, is_civil3d c0 c1 = true ↔ (|c0| > 1 ∨ |c1| > 1/1000)) ∧
    is_civil3d 1 0 = false ∧
    is_civil3d (10001/10000) 0 = true ∧
    vsegmentDetail ⟨⟨(0, 0), none⟩, .polynomialCurve [1, 0], 0, 10⟩ =
      .ok (.polyDetail "IMX" 0 0) ∧
    vsegmentDetail ⟨⟨(0, 0), none⟩, .polynomialCurve [10001/10000, 0], 0, 10⟩ =
      .ok (.polyDetail "Civil3D" 0 0) := by
  refine ⟨?_, by norm_num [is_civil3d], by norm_num [is_civil3d, abs_of_pos],
    ?_, ?_⟩
  · intro c0 c1
    simp [is_civil3d]
  · norm_num [vsegmentDetail, is_civil3d, List.getD]
    intro h
    simp at h
  · norm_num [vsegmentDetail, is_civil3d, List.getD, abs_of_pos]
    intro h
    simp at h

/-- Claim C8: evaluating a circular segment with `radius == 0` is a
domain error that fails fast — the evaluator returns an error (the
Python `ZeroDivisionError` raised by `length / radius`) and no point
list is produced — for every placement, start, length and sample
count. -/
theorem circle_zero_radius_fails_fast (placement : Placement ℝ)
    (st L : ℝ) (n : ℕ) :
    _evaluate_circle_segment placement st L 0 n =
      .error (.zeroDivisionError "float division by zero") := by
  simp [_evaluate_circle_segment]

/-- Claim C9: the vertical profile evaluator's output does not depend
on its overall-horizontal-length argument: for every gradient curve and
any two values of the `max_distance` parameter the returned distance
and elevation sequences are identical (the source never reads the
parameter). -/
theorem vertical_profile_ignores_max_distance (gc : List VSegment)
    (m1 m2 : ℚ) :
    _evaluate_vertical_profile gc m1 = _evaluate_vertical_profile gc m2 := by
  induction gc with
  | nil => rfl
  | cons seg rest ih =>
    simp only [_evaluate_vertical_profile]
    rw [ih]

/-- Claim C2 (amended): for a polynomial vertical segment the reported
elevation uses only the first three coefficients — it equals the value
of the series `c0 + c1·u + c2·u²` over `coeffs.take 3` (missing entries
defaulting to 0, higher coefficients ignored) when classified absolute,
and `start_elevation` plus that value when classified offset; the
reported distance is `start_distance + u` with `u = length·i/99` in
both styles. -/
theorem poly_segment_truncated_evaluation (loc : ℚ × ℚ)
    (coeffs : List ℚ) (L : ℚ) (i : ℕ) (hi : i < 100) :
    (polySegmentSamples loc coeffs L)[i]? =
      some (loc.1 + L * i / 99,
        if is_civil3d (coeffs.headD 0) (coeffs.getD 1 0) = true
        then polyEvalFull (coeffs.take 3) (L * i / 99)
        else loc.2 + polyEvalFull (coeffs.take 3) (L * i / 99)) := by
  unfold polySegmentSamples
  rw [List.getElem?_map, linspace_getElem? 0 L 100 i hi]
  rw [Option.map_some']
  have hu : (0 : ℚ) + (L - 0) * (i : ℚ) / (((100 : ℕ) : ℚ) - 1) =
      L * i / 99 := by
    norm_num
  rw [hu, polyEvalFull_take_three]
  congr 1
  rw [Prod.mk.injEq]
  refine ⟨rfl, ?_⟩
  split
  · rfl
  · ring

/-- Witness for C2's amended theorem: the four-coefficient list
`[0, 0, 0, 1]` at sample index 1 (`u = 1`) yields elevation 0 — the
cubic coefficient is ignored. -/
theorem poly_segment_truncated_evaluation_witness :
    (polySegmentSamples ((0 : ℚ), (0 : ℚ)) [0, 0, 0, 1] 99)[1]? =
      some (1, 0) := by
  have h := poly_segment_truncated_evaluation ((0 : ℚ), (0 : ℚ))
    [0, 0, 0, 1] 99 1 (by norm_num)
  norm_num [is_civil3d, polyEvalFull, List.getD] at h
  exact h

/-- Counterexample for C2 as stated: for the coefficient list
`[0, 0, 0, 1]` (classified offset) at local parameter `u = 1`, the code
reports elevation 0, while the full polynomial value
`start_elevation + (c0 + c1·u + c2·u² + c3·u³)` is 1. -/
theorem poly_segment_full_series_counterexample :
    (polySegmentSamples ((0 : ℚ), (0 : ℚ)) [0, 0, 0, 1] 99)[1]?
        = some (1, 0) ∧
    (0 : ℚ) + polyEvalFull [0, 0, 0, 1] 1 = 1 ∧
    ((1 : ℚ), (0 : ℚ)) ≠ ((1 : ℚ), (0 : ℚ) + polyEvalFull [0, 0, 0, 1] 1) := by
  refine ⟨?_, by norm_num [polyEvalFull], ?_⟩
  · unfold polySegmentSamples
    rw [List.getElem?_map, linspace_getElem? 0 99 100 1 (by norm_num)]
    rw [Option.map_some']
    norm_num [is_civil3d, List.getD]
  · norm_num [polyEvalFull, Prod.ext_iff]

/-- Claim C10: for polynomial vertical segments whose coefficient list
has fewer than three entries, both the vertical profile evaluator and
the analysis table treat the missing `c1` and/or `c2` as 0: a
one-coefficient list `[c0]` yields constant elevation (the same value
at every sample index) and 0% start and end grade, and a
two-coefficient list `[c0, c1]` yields linear elevation
`base + c1·u` with equal start and end grade `c1·100`. -/
theorem short_coefficient_lists_default_zero :
    (∀ (loc : ℚ × ℚ) (c0 L : ℚ) (i : ℕ), i < 100 →
      (polySegmentSamples loc [c0] L)[i]? =
        some (loc.1 + L * i / 99,
          if is_civil3d c0 0 = true then c0 else loc.2 + c0)) ∧
    (∀ (p : Placement ℚ) (c0 st L : ℚ),
      vsegmentDetail ⟨p, .polynomialCurve [c0], st, L⟩ =
        .ok (.polyDetail (if is_civil3d c0 0 = true then "Civil3D" else "IMX")
          0 0)) ∧
    (∀ (loc : ℚ × ℚ) (c0 c1 L : ℚ) (i : ℕ), i < 100 →
      (polySegmentSamples loc [c0, c1] L)[i]? =
        some (loc.1 + L * i / 99,
          (if is_civil3d c0 c1 = true then c0 else loc.2 + c0) +
            c1 * (L * i / 99))) ∧
    (∀ (p : Placement ℚ) (c0 c1 st L : ℚ),
      vsegmentDetail ⟨p, .polynomialCurve [c0, c1], st, L⟩ =
        .ok (.polyDetail
          (if is_civil3d c0 c1 = true then "Civil3D" else "IMX")
          (c1 * 100) (c1 * 100))) := by
  refine ⟨?_, ?_, ?_, ?_⟩
  · intro loc c0 L i hi
    have h := poly_segment_truncated_evaluation loc [c0] L i hi
    simp only [List.headD_cons, List.getD, List.getElem?_cons_zero,
      List.getElem?_cons_succ, List.getElem?_nil, List.get?_cons_succ,
      List.get?_cons_zero, List.get?_nil, Option.getD_some,
      Option.getD_none, List.take, polyEvalFull] at h
    rw [h]
    congr 1
    rw [Prod.mk.injEq]
    refine ⟨rfl, ?_⟩
    split
    · ring
    · ring
  · intro p c0 st L
    simp [vsegmentDetail, List.getD]
  · intro loc c0 c1 L i hi
    have h := poly_segment_truncated_evaluation loc [c0, c1] L i hi
    simp only [List.headD_cons, List.getD, List.getElem?_cons_zero,
      List.getElem?_cons_succ, List.getElem?_nil, List.get?_cons_succ,
      List.get?_cons_zero, List.get?_nil, Option.getD_some,
      Option.getD_none, List.take, polyEvalFull] at h
    rw [h]
    congr 1
    rw [Prod.mk.injEq]
    refine ⟨rfl, ?_⟩
    split
    · ring
    · ring
  · intro p c0 c1 st L
    simp [vsegmentDetail, List.getD]
    try ring

/-- Witness for C10: concrete instances — a one-coefficient segment
`[2]` has the constant (absolute) elevation 2 at sample 0, its table
grades are 0% and 0%; a two-coefficient segment `[2, 3]` at sample 1
(`u = 1`) has elevation `2 + 3`, and equal table start/end grades
`300`. -/
theorem short_coefficient_lists_default_zero_witness :
    (polySegmentSamples ((0 : ℚ), (0 : ℚ)) [2] 99)[0]? = some (0, 2) ∧
    vsegmentDetail ⟨⟨(0, 0), none⟩, .polynomialCurve [2], 0, 99⟩ =
      .ok (.polyDetail "Civil3D" 0 0) ∧
    (polySegmentSamples ((0 : ℚ), (0 : ℚ)) [2, 3] 99)[1]? = some (1, 5) ∧
    vsegmentDetail ⟨⟨(0, 0), none⟩, .polynomialCurve [2, 3], 0, 99⟩ =
      .ok (.polyDetail "Civil3D" 300 300) := by
  obtain ⟨h1, h2, h3, h4⟩ := short_coefficient_lists_default_zero
  refine ⟨?_, ?_, ?_, ?_⟩
  · have h := h1 (0, 0) 2 99 0 (by norm_num)
    norm_num [is_civil3d, abs_of_pos] at h
    exact h
  · have h := h2 ⟨(0, 0), none⟩ 2 0 99
    norm_num [is_civil3d, abs_of_pos] at h
    exact h
  · have h := h3 (0, 0) 2 3 99 1 (by norm_num)
    norm_num [is_civil3d, abs_of_pos] at h
    exact h
  · have h := h4 ⟨(0, 0), none⟩ 2 3 0 99
    norm_num [is_civil3d, abs_of_pos] at h
    exact h

/-- Claim C3 (amended): the divide-by-zero guard for a line vertical
segment's grade `g = ref_dir.y / ref_dir.x` exists only in the vertical
analysis table, which substitutes 0% grade when `ref_dir.x == 0`; the
vertical profile evaluator performs the division unguarded, so a
nonzero-length line segment with `ref_dir.x == 0` aborts the whole
profile evaluation with a `ZeroDivisionError` (hence no NaN/Infinity
sample is ever produced — but no 0%-grade fallback and no
segment-scoped failure happens there either). -/
theorem vertical_line_grade_divzero_guards :
    (∀ (loc : ℚ × ℚ) (y st L m : ℚ), L ≠ 0 →
      _evaluate_vertical_profile [⟨⟨loc, some (0, y)⟩, .line, st, L⟩] m =
        .error (.zeroDivisionError "float division by zero")) ∧
    (∀ (loc : ℚ × ℚ) (y st L : ℚ),
      vsegmentDetail ⟨⟨loc, some (0, y)⟩, .line, st, L⟩ =
        .ok (.lineDetail 0)) := by
  constructor
  · intro loc y st L m hL
    simp [_evaluate_vertical_profile, vsegmentSamples, hL]
  · intro loc y st L
    simp [vsegmentDetail]

/-- Witness for C3's amended theorem at a concrete segment. -/
theorem vertical_line_grade_divzero_guards_witness :
    _evaluate_vertical_profile [⟨⟨(0, 0), some (0, 1)⟩, .line, 0, 49⟩] 1000 =
      .error (.zeroDivisionError "float division by zero") ∧
    vsegmentDetail ⟨⟨(0, 0), some (0, 1)⟩, .line, 0, 49⟩ =
      .ok (.lineDetail 0) :=
  ⟨vertical_line_grade_divzero_guards.1 (0, 0) 1 0 49 1000 (by norm_num),
   vertical_line_grade_divzero_guards.2 (0, 0) 1 0 49⟩

/-- Counterexample for C3 as stated: a gradient curve with a line
segment whose `ref_dir.x == 0` followed by a well-formed line segment.
The profile evaluator substitutes no 0%-grade fallback and does not
fail only that segment: the entire evaluation returns a
`ZeroDivisionError` and even the second segment's samples are lost,
while the analysis table for the same curve succeeds and substitutes
0% grade for the offending segment. -/
theorem vertical_profile_divzero_counterexample :
    _evaluate_vertical_profile
        [⟨⟨(0, 0), some (0, 1)⟩, .line, 0, 49⟩,
         ⟨⟨(49, 0), some (1, 1/50)⟩, .line, 0, 300⟩] 1000 =
      .error (.zeroDivisionError "float division by zero") ∧
    _create_analysis_tables_vertical
        [⟨⟨(0, 0), some (0, 1)⟩, .line, 0, 49⟩,
         ⟨⟨(49, 0), some (1, 1/50)⟩, .line, 0, 300⟩] =
      .ok [⟨0, "Line", 0, 49, 0, .lineDetail 0⟩,
           ⟨1, "Line", 49, 300, 0, .lineDetail 2⟩] := by
  constructor
  · simp [_evaluate_vertical_profile, vsegmentSamples]
  · simp [_create_analysis_tables_vertical, vertRowsGo, vsegmentDetail,
      VParentCurve.typeName]
    norm_num

/-- Claim C4 (amended): resolving an alignment id in
`create_visualization` fails with the `ValueError`
"not found or invalid" when the id resolves to no entity or to a
non-alignment entity, and with the `ValueError`
"missing base or gradient curve" when the alignment has a
representation container lacking the 2D base (`Curve2D`) or the 3D
gradient (`Curve3D`) representation; but an alignment whose
`Representation` attribute is absent altogether crashes with an
`AttributeError` on the null access
`alignment.Representation.Representations` instead of raising a
domain error.  In every error case the result is an error value — no
partial output is produced. -/
theorem create_visualization_error_paths :
    (∀ (by_id : ℕ → Option Entity) (i : ℕ), by_id i = none →
      create_visualization by_id i = .error (.valueError
        ("Alignment " ++ toString i ++ " not found or invalid"))) ∧
    (∀ (by_id : ℕ → Option Entity) (i : ℕ) (e : Entity), by_id i = some e →
      e.is_a "IfcAlignment" = false →
      create_visualization by_id i = .error (.valueError
        ("Alignment " ++ toString i ++ " not found or invalid"))) ∧
    (∀ (by_id : ℕ → Option Entity) (i : ℕ) (e : Entity)
      (pr : ProductRepresentation), by_id i = some e →
      e.is_a "IfcAlignment" = true → e.representation = some pr →
      ((∀ r ∈ pr.representations, r.representationType ≠ "Curve2D") ∨
       (∀ r ∈ pr.representations, r.representationType ≠ "Curve3D")) →
      create_visualization by_id i = .error (.valueError
        "Alignment missing base or gradient curve")) ∧
    (∀ (by_id : ℕ → Option Entity) (i : ℕ) (e : Entity), by_id i = some e →
      e.is_a "IfcAlignment" = true → e.representation = none →
      create_visualization by_id i = .error (.attributeError
        "NoneType object has no attribute Representations")) := by
  refine ⟨?_, ?_, ?_, ?_⟩
  · intro f i hf
    unfold create_visualization
    rw [hf]
  · intro f i e hf ha
    unfold create_visualization
    rw [hf]
    simp [ha]
  · intro f i e pr hf ha hrep hmiss
    unfold create_visualization
    rw [hf]
    simp only [ha, Bool.true_eq_false, if_false, hrep]
    rcases hmiss with hmiss | hmiss
    · have h2 : (selectReps pr.representations).1 = none := by
        rw [selectReps, selectRepsGo_fst_none]
        exact ⟨rfl, hmiss⟩
      cases hsel : selectReps pr.representations with
      | mk ob og =>
        rw [hsel] at h2
        subst h2
        cases og <;> rfl
    · have h2 : (selectReps pr.representations).2 = none := by
        rw [selectReps, selectRepsGo_snd_none]
        exact ⟨rfl, hmiss⟩
      cases hsel : selectReps pr.representations with
      | mk ob og =>
        rw [hsel] at h2
        subst h2
        cases ob <;> rfl
  · intro f i e hf ha hrep
    unfold create_visualization
    rw [hf]
    simp [ha, hrep]

/-- Witness for C4's amended theorem at concrete resolvers: a file with
no entity, a file whose entity 0 is a wall, an alignment whose
representation container has only a `Curve2D`, and an alignment with no
representation container at all. -/
theorem create_visualization_error_paths_witness :
    create_visualization (fun _ => none) 5 = .error (.valueError
      ("Alignment " ++ toString 5 ++ " not found or invalid")) ∧
    create_visualization (fun _ => some ⟨"IfcWall", none⟩) 5 =
      .error (.valueError
        ("Alignment " ++ toString 5 ++ " not found or invalid")) ∧
    create_visualization
        (fun _ => some ⟨"IfcAlignment", some ⟨[⟨"Curve2D"⟩]⟩⟩) 5 =
      .error (.valueError "Alignment missing base or gradient curve") ∧
    create_visualization (fun _ => some ⟨"IfcAlignment", none⟩) 5 =
      .error (.attributeError
        "NoneType object has no attribute Representations") := by
  obtain ⟨h1, h2, h3, h4⟩ := create_visualization_error_paths
  refine ⟨h1 _ 5 rfl, h2 _ 5 ⟨"IfcWall", none⟩ rfl (by rfl), ?_, ?_⟩
  · refine h3 _ 5 ⟨"IfcAlignment", some ⟨[⟨"Curve2D"⟩]⟩⟩ ⟨[⟨"Curve2D"⟩]⟩
      rfl (by rfl) rfl (Or.inr ?_)
    intro r hr
    simp only [List.mem_singleton] at hr
    subst hr
    simp
  · exact h4 _ 5 ⟨"IfcAlignment", none⟩ rfl (by rfl) rfl

/-- Counterexample for C4 as stated: an `IfcAlignment` entity whose
`Representation` attribute is `None` lacks both curve representations,
yet `create_visualization` crashes with an `AttributeError` on the
null access instead of raising the descriptive
"missing base or gradient curve" domain error. -/
theorem create_visualization_null_rep_counterexample :
    create_visualization (fun _ => some ⟨"IfcAlignment", none⟩) 7 =
      .error (.attributeError
        "NoneType object has no attribute Representations") ∧
    create_visualization (fun _ => some ⟨"IfcAlignment", none⟩) 7 ≠
      .error (.valueError "Alignment missing base or gradient curve") := by
  constructor
  · rfl
  · intro hc
    cases hc

/-- Claim C5 (amended): the cumulative-distance sequence produced by
the curve walker is monotonically non-decreasing for every base
composite curve (each increment is a Euclidean distance, hence
non-negative); and for a composite curve consisting of a single
straight line segment of length `L ≥ 0` whose placement has a *unit*
reference direction, the final cumulative distance equals `L` (for an
unnormalised direction of norm `s` it is `s·L`, see
`base_curve_single_line`). -/
theorem base_curve_distances_monotone_line_length :
    (∀ (segs : List HSegment) (out : List (ℝ × ℝ) × List ℝ),
      _evaluate_base_curve segs = .ok out →
      List.Chain' (· ≤ ·) out.2) ∧
    (∀ (loc rd : ℝ × ℝ) (st L : ℝ), rd.1 ^ 2 + rd.2 ^ 2 = 1 → 0 ≤ L →
      ∃ pts ds,
        _evaluate_base_curve [⟨⟨loc, some rd⟩, .line, st, L⟩] =
          .ok (pts, ds) ∧ ds.getLast? = some L) := by
  constructor
  · intro segs out h
    exact walkSegments_chain segs [] [] 0 out (by simp) (by simp) h
  · intro loc rd st L h hL
    have hres := base_curve_single_line loc rd st L 1 (by norm_num)
      (by rw [h]; norm_num) hL
    simpa using hres

/-- Witness for C5's amended theorem: the empty curve's distance list
is (vacuously) monotone, and the walker on a single 49-long line
segment with the unit direction `(1, 0)` ends at cumulative distance
49. -/
theorem base_curve_distances_monotone_line_length_witness :
    List.Chain' (· ≤ ·) ([] : List ℝ) ∧
    ((_evaluate_base_curve [⟨⟨(0, 0), some (1, 0)⟩, .line, 0, 49⟩]).map
      fun out => out.2.getLast?) = .ok (some 49) := by
  constructor
  · exact base_curve_distances_monotone_line_length.1 [] ([], []) rfl
  · obtain ⟨pts, ds, hok, hlast⟩ :=
      base_curve_distances_monotone_line_length.2 (0, 0) (1, 0) 0 49
        (by norm_num) (by norm_num)
    rw [hok]
    simp [Except.map, hlast]

/-- Counterexample for C5 as stated: a single line segment of length
`L = 49` whose placement direction ratios are `(3, 4)` (norm 5, as IFC
direction ratios need not be normalised) produces a final cumulative
distance of `245 = 5·49`, not `49`. -/
theorem base_curve_line_length_counterexample :
    ((_evaluate_base_curve [⟨⟨(0, 0), some (3, 4)⟩, .line, 0, 49⟩]).map
      fun out => out.2.getLast?) = .ok (some 245) ∧
    (245 : ℝ) ≠ 49 := by
  constructor
  · obtain ⟨pts, ds, hok, hlast⟩ :=
      base_curve_single_line (0, 0) (3, 4) 0 49 5 (by norm_num)
        (by norm_num) (by norm_num)
    rw [hok]
    simp only [Except.map, hlast]
    norm_num
  · norm_num

/-- Claim C6 (amended): each sampled world point of a line segment
equals `origin + M·(t, 0)` where `M` uses the direction ratios directly
as `(cos θ, sin θ)`; this coincides with the spec's
`origin + R(θ)·(t, 0)`, `θ = atan2(ref_dir.y, ref_dir.x)`, exactly when
the reference direction is a unit vector (the hypothesis below); under
identity placement the first sampled point is `(0, 0)` and the last is
`(L, 0)`. -/
theorem line_segment_world_point_spec (loc rd : ℝ × ℝ) (st L : ℝ)
    (h : rd.1 ^ 2 + rd.2 ^ 2 = 1) :
    (∀ i : ℕ, i < 50 →
      (_evaluate_line_segment ⟨loc, some rd⟩ st L 50)[i]? =
        some (spec_world_point loc rd (L * i / 49, 0))) ∧
    (_evaluate_line_segment ⟨(0, 0), some (1, 0)⟩ st L 50).head? =
      some (0, 0) ∧
    (_evaluate_line_segment ⟨(0, 0), some (1, 0)⟩ st L 50).getLast? =
      some (L, 0) := by
  refine ⟨?_, ?_, ?_⟩
  · intro i hi
    rw [line_segment_points_eq, List.getElem?_map,
      linspace_getElem? 0 L 50 i hi, Option.map_some']
    unfold spec_world_point
    rw [h, Real.sqrt_one]
    congr 1
    rw [Prod.mk.injEq]
    constructor
    · rw [div_one]
      push_cast
      ring
    · rw [div_one]
      push_cast
      ring
  · rw [line_segment_points_eq, List.head?_map,
      linspace_head? 0 L 50 (by norm_num)]
    simp
  · rw [line_segment_points_eq, List.getLast?_map,
      linspace_getLast? 0 L 50 (by norm_num)]
    simp

/-- Witness for C6's amended theorem: under identity placement
(direction `(1, 0)`, a unit vector) and `L = 49`, the first sampled
point is `(0, 0)`, the last is `(49, 0)`, and sample 1 is the
spec-rotated point. -/
theorem line_segment_world_point_spec_witness :
    (_evaluate_line_segment ⟨(0, 0), some (1, 0)⟩ 0 49 50).head? =
      some (0, 0) ∧
    (_evaluate_line_segment ⟨(0, 0), some (1, 0)⟩ 0 49 50).getLast? =
      some (49, 0) ∧
    (_evaluate_line_segment ⟨(0, 0), some (1, 0)⟩ 0 49 50)[1]? =
      some (spec_world_point (0, 0) (1, 0) (49 * 1 / 49, 0)) := by
  have h := line_segment_world_point_spec (0, 0) (1, 0) 0 49 (by norm_num)
  refine ⟨h.2.1, h.2.2, ?_⟩
  have h1 := h.1 1 (by norm_num)
  simpa using h1

/-- Counterexample for C6 as stated: with the non-unit direction ratios
`(3, 4)` and `L = 49`, sample 1 (`t = 1`) of the code's evaluator is
`(3, 4)`, while the spec's `origin + R(θ)·(1, 0)` with
`θ = atan2(4, 3)` is the unit-normalised `(3/5, 4/5)`. -/
theorem line_segment_rotation_counterexample :
    (_evaluate_line_segment ⟨(0, 0), some (3, 4)⟩ 0 49 50)[1]? =
      some (3, 4) ∧
    spec_world_point (0, 0) (3, 4) (1, 0) = (3/5, 4/5) ∧
    ((3 : ℝ), (4 : ℝ)) ≠ ((3/5 : ℝ), (4/5 : ℝ)) := by
  refine ⟨?_, ?_, ?_⟩
  · rw [line_segment_points_eq, List.getElem?_map,
      linspace_getElem? 0 49 50 1 (by norm_num), Option.map_some']
    norm_num
  · unfold spec_world_point
    have h5 : Real.sqrt (((3 : ℝ), (4 : ℝ)).1 ^ 2 + ((3 : ℝ), (4 : ℝ)).2 ^ 2)
        = 5 := by
      rw [show (((3 : ℝ), (4 : ℝ)).1 ^ 2 + ((3 : ℝ), (4 : ℝ)).2 ^ 2 : ℝ)
        = 5 ^ 2 by norm_num]
      exact Real.sqrt_sq (by norm_num)
    rw [h5]
    norm_num
  · intro hc
    rw [Prod.mk.injEq] at hc
    norm_num at hc

/-- Claim C7: circular-arc sampling.  For a nonzero radius `R` and a
non-negative length, local point `i` is
`(R·sin a, R·(1 − cos a))` at the evenly spaced angle
`a = (L/R)·i/49`; a quarter-circle arc of length `R·(π/2)` under
identity placement ends at `(R, R)`; a negative length samples angles
over `[0, −L/R]` with the Y coordinate sign mirrored. -/
theorem circle_segment_sampling_spec :
    (∀ (R L : ℝ), R ≠ 0 → 0 ≤ L → ∀ i : ℕ, i < 50 →
      (circleLocalPoints R L 50)[i]? =
        some (R * Real.sin (L / R * i / 49),
          R * (1 - Real.cos (L / R * i / 49)))) ∧
    (∀ R : ℝ, 0 < R →
      ∃ pts, _evaluate_circle_segment ⟨(0, 0), some (1, 0)⟩ 0
          (R * (Real.pi / 2)) R 50 = .ok pts ∧
        pts.getLast? = some (R, R)) ∧
    (∀ (R L : ℝ), R ≠ 0 → L < 0 → ∀ i : ℕ, i < 50 →
      (circleLocalPoints R L 50)[i]? =
        some (R * Real.sin (-L / R * i / 49),
          -(R * (1 - Real.cos (-L / R * i / 49))))) := by
  refine ⟨?_, ?_, ?_⟩
  · intro R L hR hL i hi
    rcases hL.lt_or_eq with hpos | hzero
    · unfold circleLocalPoints
      rw [if_pos hpos, List.getElem?_map, linspace_getElem? 0 (L / R) 50 i hi,
        Option.map_some']
      have harg : (0 : ℝ) + (L / R - 0) * (i : ℝ) / (((50 : ℕ) : ℝ) - 1) =
          L / R * i / 49 := by
        push_cast
        ring
      rw [harg]
    · subst hzero
      unfold circleLocalPoints
      rw [if_neg (lt_irrefl 0), List.getElem?_map,
        linspace_getElem? 0 (-0 / R) 50 i hi, Option.map_some']
      norm_num
  · intro R hR
    unfold _evaluate_circle_segment
    rw [if_neg hR.ne']
    refine ⟨_, rfl, ?_⟩
    rw [List.getLast?_map]
    unfold circleLocalPoints
    have hpos : (0 : ℝ) < R * (Real.pi / 2) :=
      mul_pos hR (by positivity)
    rw [if_pos hpos, List.getLast?_map,
      linspace_getLast? 0 (R * (Real.pi / 2) / R) 50 (by norm_num)]
    have harg : R * (Real.pi / 2) / R = Real.pi / 2 := by
      field_simp
      ring
    rw [harg]
    simp only [Option.map_some', Real.sin_pi_div_two, Real.cos_pi_div_two]
    unfold rotateTranslate refDirOf
    norm_num
  · intro R L hR hL i hi
    unfold circleLocalPoints
    rw [if_neg (not_lt.mpr hL.le), List.getElem?_map,
      linspace_getElem? 0 (-L / R) 50 i hi, Option.map_some']
    have harg : (0 : ℝ) + (-L / R - 0) * (i : ℝ) / (((50 : ℕ) : ℝ) - 1) =
        -L / R * i / 49 := by
      push_cast
      ring
    rw [harg]

/-- Witness for C7: concrete instances — the first local point of a
unit-radius arc of length 1 is the origin; a unit-radius quarter circle
of length `π/2` ends at `(1, 1)`; the first local point of a
negative-length arc is the origin. -/
theorem circle_segment_sampling_spec_witness :
    (circleLocalPoints 1 1 50)[0]? = some (0, 0) ∧
    ((_evaluate_circle_segment ⟨(0, 0), some (1, 0)⟩ 0
        (1 * (Real.pi / 2)) 1 50).map fun pts => pts.getLast?) =
      .ok (some (1, 1)) ∧
    (circleLocalPoints 1 (-1) 50)[0]? = some (0, 0) := by
  refine ⟨?_, ?_, ?_⟩
  · have h := circle_segment_sampling_spec.1 1 1 (by norm_num) (by norm_num)
      0 (by norm_num)
    simpa using h
  · obtain ⟨pts, hok, hlast⟩ :=
      circle_segment_sampling_spec.2.1 1 (by norm_num)
    rw [hok]
    simp [Except.map, hlast]
  · have h := circle_segment_sampling_spec.2.2 1 (-1) (by norm_num)
      (by norm_num) 0 (by norm_num)
    simpa using h
